import Mathlib

/-!
Shallow embedding of the blur-scoring engine of the `blurry` repository.

Numbers are modelled as exact rationals (`ℚ`): the JavaScript source computes
with IEEE doubles, and every claim under study is about the ideal arithmetic
the code implements.  The transcendental library functions `Math.log10`,
`Math.exp` and `Math.sqrt` are not rational-valued, so each definition that
uses one takes it as an explicit function parameter (`log10`, `gexp`,
`msqrt`); theorems hold for every function satisfying the stated elementary
properties (non-negativity of a square root, positivity of an exponential),
which the real functions satisfy.

JavaScript `Array.prototype.sort` (stable in all modern engines) is modelled
by the stable `List.insertionSort`.
-/

/-- Clip a value into the interval from `lo` to `hi`, as the `clip` helpers of
`CompositeDetector` (`Math.max(min, Math.min(max, value))`) and
`PatchBasedDetector` (`Math.min(Math.max(value, min), max)`); the two agree
whenever `lo ≤ hi`, which holds at every call site. -/
def clip (value lo hi : ℚ) : ℚ := max lo (min hi value)

/-- Population variance of an array: mean, then mean of squared deviations,
as `LaplacianDetector.calculateVariance` / `VarianceDetector.calculateVariance`
(denominator is the full element count). -/
def calculateVariance (data : List ℚ) : ℚ :=
  let m := data.sum / (data.length : ℚ)
  ((data.map fun x => (x - m) * (x - m)).sum) / (data.length : ℚ)

/-- Discrete Laplacian response, as `LaplacianDetector.applyLaplacian`: the
result array has one entry per pixel; interior pixels hold
`top + left - 4*center + right + bottom`, the one-pixel border stays `0`. -/
def applyLaplacian (pixels : List ℚ) (width height : ℕ) : List ℚ :=
  (List.range (width * height)).map fun idx =>
    let x := idx % width
    let y := idx / width
    if 1 ≤ x ∧ x + 1 < width ∧ 1 ≤ y ∧ y + 1 < height then
      pixels.getD ((y - 1) * width + x) 0 + pixels.getD (y * width + (x - 1)) 0
        - 4 * pixels.getD (y * width + x) 0
        + pixels.getD (y * width + (x + 1)) 0 + pixels.getD ((y + 1) * width + x) 0
    else 0

/-- Sobel-X response over interior pixels, border left `0`, as
`calculateGradients` in `GradientDetector` / `TenengradDetector`. -/
def applySobelX (pixels : List ℚ) (width height : ℕ) : List ℚ :=
  (List.range (width * height)).map fun idx =>
    let x := idx % width
    let y := idx / width
    if 1 ≤ x ∧ x + 1 < width ∧ 1 ≤ y ∧ y + 1 < height then
      -pixels.getD ((y - 1) * width + (x - 1)) 0 + pixels.getD ((y - 1) * width + (x + 1)) 0
        - 2 * pixels.getD (y * width + (x - 1)) 0 + 2 * pixels.getD (y * width + (x + 1)) 0
        - pixels.getD ((y + 1) * width + (x - 1)) 0 + pixels.getD ((y + 1) * width + (x + 1)) 0
    else 0

/-- Sobel-Y response over interior pixels, border left `0`. -/
def applySobelY (pixels : List ℚ) (width height : ℕ) : List ℚ :=
  (List.range (width * height)).map fun idx =>
    let x := idx % width
    let y := idx / width
    if 1 ≤ x ∧ x + 1 < width ∧ 1 ≤ y ∧ y + 1 < height then
      -pixels.getD ((y - 1) * width + (x - 1)) 0 - 2 * pixels.getD ((y - 1) * width + x) 0
        - pixels.getD ((y - 1) * width + (x + 1)) 0 + pixels.getD ((y + 1) * width + (x - 1)) 0
        + 2 * pixels.getD ((y + 1) * width + x) 0 + pixels.getD ((y + 1) * width + (x + 1)) 0
    else 0

/-- `LaplacianDetector.calculateBlurScore` after decoding: variance of the
Laplacian response. -/
def laplacianBlurScore (pixels : List ℚ) (width height : ℕ) : ℚ :=
  calculateVariance (applyLaplacian pixels width height)

/-- `GradientDetector.calculateBlurScore` after decoding: mean of the Sobel
gradient magnitude `sqrt(gx² + gy²)` over the full buffer; `msqrt` models
`Math.sqrt`. -/
def gradientBlurScore (msqrt : ℚ → ℚ) (pixels : List ℚ) (width height : ℕ) : ℚ :=
  let gx := applySobelX pixels width height
  let gy := applySobelY pixels width height
  let magnitude := (gx.zip gy).map fun p => msqrt (p.1 * p.1 + p.2 * p.2)
  magnitude.sum / (magnitude.length : ℚ)

/-- `TenengradDetector.calculateBlurScore` after decoding: variance of the
squared gradient magnitude `gx² + gy²` over the full buffer. -/
def tenengradBlurScore (pixels : List ℚ) (width height : ℕ) : ℚ :=
  let gx := applySobelX pixels width height
  let gy := applySobelY pixels width height
  let squaredMagnitude := (gx.zip gy).map fun p => p.1 * p.1 + p.2 * p.2
  calculateVariance squaredMagnitude

/-- `VarianceDetector.calculateBlurScore` after decoding: variance of the raw
grayscale intensities. -/
def varianceBlurScore (pixels : List ℚ) : ℚ :=
  calculateVariance pixels

/-- Per-algorithm calibration statistics, the `{p5, p95, median, min, max}`
record of `Calibration.computeStats`. -/
structure AlgStats where
  p5 : ℚ
  p95 : ℚ
  median : ℚ
  min : ℚ
  max : ℚ
deriving DecidableEq

/-- The full calibration dataset record produced by `Calibration.computeStats`. -/
structure CalibStats where
  laplacian : AlgStats
  gradient : AlgStats
  tenengrad : AlgStats
  variance : AlgStats
  sampleSize : ℕ
  patchMode : Bool
  totalSamples : ℕ
  version : String
deriving DecidableEq

/-- The per-algorithm normalized scores of `CompositeDetector`. -/
structure NormalizedScores where
  laplacian : ℚ
  gradient : ℚ
  tenengrad : ℚ
  variance : ℚ
deriving DecidableEq

/-- The zero-guarded logarithm used for Tenengrad values:
`value > 0 ? Math.log10(value) : 0`; `log10` models `Math.log10`. -/
def tenengradLogOf (log10 : ℚ → ℚ) (value : ℚ) : ℚ :=
  if 0 < value then log10 value else 0

/-- `CompositeDetector.normalizeHandTuned`. -/
def normalizeHandTuned (log10 : ℚ → ℚ) (laplacianScore gradientScore tenengradScore varianceScore : ℚ) :
    NormalizedScores :=
  { laplacian := min 100 (laplacianScore / 0.5)
    gradient := min 100 (gradientScore / 0.3)
    tenengrad := clip ((tenengradLogOf log10 tenengradScore - 2) / 6 * 100) 0 100
    variance := min 100 (varianceScore / 10) }

/-- The log-space percentile mapping used for Tenengrad, shared by
`CompositeDetector.normalizePercentile` and
`PatchBasedDetector.calculatePeakFocus`: both the value and the `p5`/`p95`
bounds pass through the zero-guarded `log10`. -/
def normalizeTenengradLog (log10 : ℚ → ℚ) (p5 p95 value : ℚ) : ℚ :=
  100 * clip ((tenengradLogOf log10 value - tenengradLogOf log10 p5) /
      (tenengradLogOf log10 p95 - tenengradLogOf log10 p5)) 0 1

/-- `CompositeDetector.normalizePercentile`. -/
def normalizePercentile (log10 : ℚ → ℚ) (stats : CalibStats)
    (laplacianScore gradientScore tenengradScore varianceScore : ℚ) : NormalizedScores :=
  { laplacian := 100 * clip ((laplacianScore - stats.laplacian.p5) /
        (stats.laplacian.p95 - stats.laplacian.p5)) 0 1
    gradient := 100 * clip ((gradientScore - stats.gradient.p5) /
        (stats.gradient.p95 - stats.gradient.p5)) 0 1
    tenengrad := normalizeTenengradLog log10 stats.tenengrad.p5 stats.tenengrad.p95 tenengradScore
    variance := 100 * clip ((varianceScore - stats.variance.p5) /
        (stats.variance.p95 - stats.variance.p5)) 0 1 }

/-- The fixed-weight combination of `CompositeDetector.calculateBlurScore`:
`laplacian*0.30 + gradient*0.20 + tenengrad*0.40 + variance*0.10`. -/
def compositeOf (n : NormalizedScores) : ℚ :=
  n.laplacian * 0.30 + n.gradient * 0.20 + n.tenengrad * 0.40 + n.variance * 0.10

/-- The record returned by `CompositeDetector.calculateBlurScore`. -/
structure CompositeResult where
  composite : ℚ
  laplacian : ℚ
  gradient : ℚ
  tenengrad : ℚ
  variance : ℚ
  normalized : NormalizedScores
deriving DecidableEq

/-- `CompositeDetector.calculateBlurScore` given the four kernel outputs:
normalize (percentile mode when calibration stats are supplied, hand-tuned
otherwise), then combine with the fixed weights. -/
def calculateCompositeScore (log10 : ℚ → ℚ) (calib : Option CalibStats)
    (laplacianScore gradientScore tenengradScore varianceScore : ℚ) : CompositeResult :=
  let normalized :=
    match calib with
    | some stats => normalizePercentile log10 stats laplacianScore gradientScore tenengradScore varianceScore
    | none => normalizeHandTuned log10 laplacianScore gradientScore tenengradScore varianceScore
  { composite := compositeOf normalized
    laplacian := laplacianScore
    gradient := gradientScore
    tenengrad := tenengradScore
    variance := varianceScore
    normalized := normalized }

/-- `CompositeDetector.isBlurry`: the composite score is below the threshold. -/
def isBlurryComposite (scores : CompositeResult) (threshold : ℚ) : Bool :=
  decide (scores.composite < threshold)

/-- `Calibration.percentile` (the caller supplies a sorted array): linear
interpolation between order statistics at fractional rank `p/100*(n-1)`;
an empty array yields `0`. -/
def percentileSorted (sortedArray : List ℚ) (p : ℚ) : ℚ :=
  if sortedArray.isEmpty then 0
  else
    let index := p / 100 * ((sortedArray.length : ℚ) - 1)
    let lower := ⌊index⌋
    let upper := ⌈index⌉
    let weight := index - lower
    if (sortedArray.length : ℤ) ≤ upper then sortedArray.getD (sortedArray.length - 1) 0
    else sortedArray.getD lower.toNat 0 * (1 - weight) + sortedArray.getD upper.toNat 0 * weight

/-- Ascending numeric sort, as `arr.sort((a, b) => a - b)`. -/
def sortAsc (arr : List ℚ) : List ℚ :=
  arr.insertionSort (· ≤ ·)

/-- `PatchBasedDetector.percentile`: sorts a copy of the array ascending, then
interpolates like `Calibration.percentile`. -/
def percentile (arr : List ℚ) (p : ℚ) : ℚ :=
  percentileSorted (sortAsc arr) p

/-- One per-patch score record (`patchScores` entries of
`PatchBasedDetector.calculateBlurScore`). -/
structure PatchScore where
  composite : ℚ
  laplacian : ℚ
  gradient : ℚ
  tenengrad : ℚ
  variance : ℚ
deriving DecidableEq

/-- Gaussian position weight of patch `i` in a `patchesX × patchesY` grid:
`exp(-d²/(2σ²))` with `d` the center distance normalized per axis.  The source
computes `d = sqrt(dx² + dy²)` and then squares it again inside `exp`, so the
square root cancels exactly and the weight is `gexp` (modelling `Math.exp`)
of `-(dx² + dy²)/(2σ²)`. -/
def positionWeight (gexp : ℚ → ℚ) (patchesX patchesY : ℕ) (sigma : ℚ) (i : ℕ) : ℚ :=
  let centerX : ℚ := ((patchesX : ℚ) - 1) / 2
  let centerY : ℚ := ((patchesY : ℚ) - 1) / 2
  let dx := (((i % patchesX : ℕ) : ℚ) - centerX) / centerX
  let dy := (((i / patchesX : ℕ) : ℚ) - centerY) / centerY
  gexp (-(dx * dx + dy * dy) / (2 * sigma * sigma))

/-- `PatchBasedDetector.calculateCenterWeighted`: Gaussian-weighted mean over
all patches with `sigma = 0.5`; the loop accumulates
`weightedSum += composite * weight` and `totalWeight += weight` over all
patch indices and divides. -/
def calculateCenterWeighted (gexp : ℚ → ℚ) (patchScores : List PatchScore)
    (patchesX patchesY : ℕ) : ℚ :=
  ((patchScores.enum.map fun p =>
      p.2.composite * positionWeight gexp patchesX patchesY (1 / 2) p.1).sum) /
    ((patchScores.enum.map fun p => positionWeight gexp patchesX patchesY (1 / 2) p.1).sum)

/-- The `{composite, positionWeight, index}` records built by
`calculateSubjectFocusVariant`. -/
structure ScoredPatch where
  composite : ℚ
  positionWeight : ℚ
  index : ℕ
deriving DecidableEq

/-- The scored-patch list of `calculateSubjectFocusVariant`: each patch keeps
its composite score and gets a Gaussian position weight from its grid index. -/
def scoredPatchesOf (gexp : ℚ → ℚ) (patchScores : List PatchScore)
    (patchesX patchesY : ℕ) (sigma : ℚ) : List ScoredPatch :=
  patchScores.enum.map fun p =>
    ScoredPatch.mk p.2.composite (positionWeight gexp patchesX patchesY sigma p.1) p.1

/-- The retained-patch count `Math.max(3, Math.ceil(patchScores.length * topPercent))`. -/
def topNOf (patchCount : ℕ) (topPercent : ℚ) : ℕ :=
  max 3 (⌈(patchCount : ℚ) * topPercent⌉.toNat)

/-- The retained subset of `calculateSubjectFocusVariant`: sort the scored
patches descending by composite score and keep the top
`max(3, ceil(count * topPercent))`. -/
def retainedPatches (gexp : ℚ → ℚ) (patchScores : List PatchScore)
    (patchesX patchesY : ℕ) (topPercent sigma : ℚ) : List ScoredPatch :=
  ((scoredPatchesOf gexp patchScores patchesX patchesY sigma).insertionSort
      fun a b => b.composite ≤ a.composite).take (topNOf patchScores.length topPercent)

/-- `PatchBasedDetector.calculateSubjectFocusVariant`: position-weighted mean
of the retained patches' composite scores, with the weights renormalized
within the retained subset. -/
def calculateSubjectFocusVariant (gexp : ℚ → ℚ) (patchScores : List PatchScore)
    (patchesX patchesY : ℕ) (topPercent sigma : ℚ) : ℚ :=
  let topPatches := retainedPatches gexp patchScores patchesX patchesY topPercent sigma
  ((topPatches.map fun p => p.composite * p.positionWeight).sum) /
    ((topPatches.map fun p => p.positionWeight).sum)

/-- `calculateSubjectFocusAggressive`: `(topPercent, sigma) = (0.08, 1.5)`. -/
def calculateSubjectFocusAggressive (gexp : ℚ → ℚ) (patchScores : List PatchScore)
    (patchesX patchesY : ℕ) : ℚ :=
  calculateSubjectFocusVariant gexp patchScores patchesX patchesY 0.08 1.5

/-- `calculateSubjectFocus`: `(topPercent, sigma) = (0.12, 1.0)`. -/
def calculateSubjectFocus (gexp : ℚ → ℚ) (patchScores : List PatchScore)
    (patchesX patchesY : ℕ) : ℚ :=
  calculateSubjectFocusVariant gexp patchScores patchesX patchesY 0.12 1.0

/-- `calculateSubjectFocusConservative`: `(topPercent, sigma) = (0.18, 0.7)`. -/
def calculateSubjectFocusConservative (gexp : ℚ → ℚ) (patchScores : List PatchScore)
    (patchesX patchesY : ℕ) : ℚ :=
  calculateSubjectFocusVariant gexp patchScores patchesX patchesY 0.18 0.7

/-- `calculateSubjectFocusRelaxed`: `(topPercent, sigma) = (0.28, 0.5)`. -/
def calculateSubjectFocusRelaxed (gexp : ℚ → ℚ) (patchScores : List PatchScore)
    (patchesX patchesY : ℕ) : ℚ :=
  calculateSubjectFocusVariant gexp patchScores patchesX patchesY 0.28 0.5

/-- `calculateSubjectFocusStrict`: `(topPercent, sigma) = (0.38, 0.4)`. -/
def calculateSubjectFocusStrict (gexp : ℚ → ℚ) (patchScores : List PatchScore)
    (patchesX patchesY : ℕ) : ℚ :=
  calculateSubjectFocusVariant gexp patchScores patchesX patchesY 0.38 0.4

/-- `calculateSubjectFocusVeryStrict`: `(topPercent, sigma) = (0.40, 0.35)`. -/
def calculateSubjectFocusVeryStrict (gexp : ℚ → ℚ) (patchScores : List PatchScore)
    (patchesX patchesY : ℕ) : ℚ :=
  calculateSubjectFocusVariant gexp patchScores patchesX patchesY 0.40 0.35

/-- Descending sort by composite score, as
`[...patchScores].sort((a, b) => b.composite - a.composite)`. -/
def sortPatchesByCompositeDesc (patchScores : List PatchScore) : List PatchScore :=
  patchScores.insertionSort fun a b => b.composite ≤ a.composite

/-- The raw Tenengrad values of the top-3-by-composite patches used by
`calculatePeakFocus`. -/
def topTenengrads (patchScores : List PatchScore) : List ℚ :=
  ((sortPatchesByCompositeDesc patchScores).take 3).map fun p => p.tenengrad

/-- `PatchBasedDetector.calculatePeakFocus`: average the raw Tenengrad values
of the top-3-by-composite patches, then normalize that single value in log10
space — against calibration `p5`/`p95` when available, else against the
empirical log range `[3.0, 9.0]`. -/
def calculatePeakFocus (log10 : ℚ → ℚ) (calibrationTenengrad : Option AlgStats)
    (patchScores : List PatchScore) : ℚ :=
  let tens := topTenengrads patchScores
  let avgTenengrad := tens.sum / (tens.length : ℚ)
  match calibrationTenengrad with
  | some stats => normalizeTenengradLog log10 stats.p5 stats.p95 avgTenengrad
  | none => 100 * clip ((tenengradLogOf log10 avgTenengrad - 3) / (9 - 3)) 0 1

/-- `avgFocus` of `PatchBasedDetector.calculateBlurScore`: arithmetic mean of
the per-patch composite scores. -/
def avgFocusOf (compositeScores : List ℚ) : ℚ :=
  compositeScores.sum / (compositeScores.length : ℚ)

/-- The per-image score record consumed by `Calibration.computeStats`
(`result.scores`): full-image raw scores and, when the patch-based algorithm
produced them, the per-patch score list. -/
structure ImageScores where
  laplacian : ℚ
  gradient : ℚ
  tenengrad : ℚ
  variance : ℚ
  patchScores : Option (List PatchScore)
deriving DecidableEq

/-- One entry of the corpus passed to `Calibration.computeStats`: either an
error marker or a score record (or neither, for malformed entries). -/
structure ImageResult where
  error : Option String
  scores : Option ImageScores
deriving DecidableEq

/-- The filter `results.filter(r => !r.error && r.scores)` of
`Calibration.computeStats`, with the present score records extracted. -/
def validScoresOf (results : List ImageResult) : List ImageScores :=
  results.filterMap fun r => if r.error.isNone then r.scores else none

/-- Patch-mode collection in `Calibration.computeStats`: one data point per
patch, concatenated across all valid images (images without a `patchScores`
field contribute nothing). -/
def flattenedPatchField (results : List ImageResult) (f : PatchScore → ℚ) : List ℚ :=
  (validScoresOf results).flatMap fun s => (s.patchScores.getD []).map f

/-- The `{p5, p95, median, min, max}` record computed from one sorted score
array in `Calibration.computeStats`. -/
def algStatsOf (sorted : List ℚ) : AlgStats :=
  { p5 := percentileSorted sorted 5
    p95 := percentileSorted sorted 95
    median := percentileSorted sorted 50
    min := sorted.getD 0 0
    max := sorted.getD (sorted.length - 1) 0 }

/-- `Calibration.computeStats`: filter out error/failed entries, fail when
nothing remains, else sort the four per-algorithm score arrays (flattened
per-patch data in patch mode, one entry per image otherwise) and record their
percentile statistics, the valid-image count and the data-point count. -/
def computeStats (results : List ImageResult) (patchMode : Bool) : Except String CalibStats :=
  let validResults := validScoresOf results
  if validResults.isEmpty then
    Except.error "No valid results to compute statistics from"
  else
    let laplacianScores := sortAsc (if patchMode then
      flattenedPatchField results (fun p => p.laplacian) else validResults.map fun s => s.laplacian)
    let gradientScores := sortAsc (if patchMode then
      flattenedPatchField results (fun p => p.gradient) else validResults.map fun s => s.gradient)
    let tenengradScores := sortAsc (if patchMode then
      flattenedPatchField results (fun p => p.tenengrad) else validResults.map fun s => s.tenengrad)
    let varianceScores := sortAsc (if patchMode then
      flattenedPatchField results (fun p => p.variance) else validResults.map fun s => s.variance)
    Except.ok
      { laplacian := algStatsOf laplacianScores
        gradient := algStatsOf gradientScores
        tenengrad := algStatsOf tenengradScores
        variance := algStatsOf varianceScores
        sampleSize := validResults.length
        patchMode := patchMode
        totalSamples := laplacianScores.length
        version := "1.0.0" }

/-- The detector kinds `BlurDetector`'s constructor can instantiate. -/
inductive DetectorKind where
  | laplacian
  | gradient
  | tenengrad
  | variance
  | patchBased
  | composite
deriving DecidableEq

/-- The algorithm names with their own `case` in `BlurDetector`'s constructor
switch. -/
def supportedAlgorithms : List String :=
  ["laplacian", "gradient", "tenengrad", "variance", "patch-based", "composite"]

/-- The algorithm dispatch of `BlurDetector`'s constructor: a switch whose
final arm is `case 'composite': default:`, so every unrecognized name also
selects the composite detector. -/
def selectDetector (algorithm : String) : DetectorKind :=
  if algorithm = "laplacian" then DetectorKind.laplacian
  else if algorithm = "gradient" then DetectorKind.gradient
  else if algorithm = "tenengrad" then DetectorKind.tenengrad
  else if algorithm = "variance" then DetectorKind.variance
  else if algorithm = "patch-based" then DetectorKind.patchBased
  else DetectorKind.composite

/-- The aggregation outputs of `PatchBasedDetector.calculateBlurScore` that
`isBlurry`'s strategy switch can select. -/
structure AggScores where
  maxFocus : ℚ
  minFocus : ℚ
  avgFocus : ℚ
  centerWeighted : ℚ
  subjectFocusAggressive : ℚ
  subjectFocus : ℚ
  subjectFocusConservative : ℚ
  subjectFocusRelaxed : ℚ
  subjectFocusStrict : ℚ
  subjectFocusVeryStrict : ℚ
  peakFocus : ℚ
  top10Percentile : ℚ
  top25Percentile : ℚ
  medianFocus : ℚ
deriving DecidableEq

/-- The strategy names with their own `case` in `PatchBasedDetector.isBlurry`. -/
def supportedStrategies : List String :=
  ["max-focus", "subject-focus-aggressive", "subject-focus", "subject-focus-conservative",
   "subject-focus-relaxed", "subject-focus-strict", "subject-focus-very-strict",
   "peak-focus", "center-weighted", "top-25-percentile", "average", "median"]

/-- The strategy switch of `PatchBasedDetector.isBlurry`: its `default` arm
selects `scores.maxFocus`, so every unrecognized name does too. -/
def strategyScoreOf (scores : AggScores) (strategy : String) : ℚ :=
  if strategy = "max-focus" then scores.maxFocus
  else if strategy = "subject-focus-aggressive" then scores.subjectFocusAggressive
  else if strategy = "subject-focus" then scores.subjectFocus
  else if strategy = "subject-focus-conservative" then scores.subjectFocusConservative
  else if strategy = "subject-focus-relaxed" then scores.subjectFocusRelaxed
  else if strategy = "subject-focus-strict" then scores.subjectFocusStrict
  else if strategy = "subject-focus-very-strict" then scores.subjectFocusVeryStrict
  else if strategy = "peak-focus" then scores.peakFocus
  else if strategy = "center-weighted" then scores.centerWeighted
  else if strategy = "top-25-percentile" then scores.top25Percentile
  else if strategy = "average" then scores.avgFocus
  else if strategy = "median" then scores.medianFocus
  else scores.maxFocus

/-- `PatchBasedDetector.isBlurry`: the selected strategy score is below the
threshold. -/
def isBlurryPatchBased (scores : AggScores) (threshold : ℚ) (strategy : String) : Bool :=
  decide (strategyScoreOf scores strategy < threshold)

/-- The per-image record produced by `BlurDetector.analyze` (fields relevant
to the error-boundary behaviour). -/
structure AnalyzeResult where
  file : String
  blurScore : Option ℚ
  isBlurry : Option Bool
  error : Option String
deriving DecidableEq

/-- `Math.round(x * 100) / 100` (rounding half toward positive infinity). -/
def round2 (x : ℚ) : ℚ :=
  (⌊x * 100 + 1 / 2⌋ : ℚ) / 100

/-- `BlurDetector.analyze` for the composite algorithm, with the effectful
extract/decode/kernel pipeline of one image represented by its outcome: the
surrounding `try`/`catch` turns a thrown error into a result record carrying
the message and no scores, and a success into a record with the rounded
composite score and the blurry verdict. -/
def analyzeComposite (threshold : ℚ) (file : String)
    (outcome : Except String CompositeResult) : AnalyzeResult :=
  match outcome with
  | Except.error msg =>
      { file := file, blurScore := none, isBlurry := none, error := some msg }
  | Except.ok rawScore =>
      { file := file
        blurScore := some (round2 rawScore.composite)
        isBlurry := some (isBlurryComposite rawScore threshold)
        error := none }

/-- `analyzeDirectory`: analyze each file in turn, collecting one result
record per file. -/
def analyzeBatch (threshold : ℚ) (inputs : List (String × Except String CompositeResult)) :
    List AnalyzeResult :=
  inputs.map fun i => analyzeComposite threshold i.1 i.2

/-- All four normalized scores lie in `[0, 100]`. -/
def normalizedInRange (n : NormalizedScores) : Prop :=
  (0 ≤ n.laplacian ∧ n.laplacian ≤ 100) ∧ (0 ≤ n.gradient ∧ n.gradient ≤ 100) ∧
    (0 ≤ n.tenengrad ∧ n.tenengrad ≤ 100) ∧ (0 ≤ n.variance ∧ n.variance ≤ 100)

/-! ### General lemmas -/

theorem le_clip (value lo hi : ℚ) : lo ≤ clip value lo hi :=
  le_max_left _ _

theorem clip_le (value lo hi : ℚ) (h : lo ≤ hi) : clip value lo hi ≤ hi :=
  max_le h (min_le_left _ _)

theorem getD_mem_of_lt (l : List ℚ) (i : ℕ) (h : i < l.length) : l.getD i 0 ∈ l := by
  rw [List.getD_eq_getElem?_getD, List.getElem?_eq_getElem h]
  exact List.getElem_mem h

theorem sum_div_length_le (l : List ℚ) (hi : ℚ) (hne : l ≠ []) (hb : ∀ x ∈ l, x ≤ hi) :
    l.sum / (l.length : ℚ) ≤ hi := by
  have hlen : 0 < (l.length : ℚ) := by exact_mod_cast List.length_pos.mpr hne
  rw [div_le_iff₀ hlen]
  have h := List.sum_le_card_nsmul l hi hb
  rw [nsmul_eq_mul] at h
  linarith [h]

theorem le_sum_div_length (l : List ℚ) (lo : ℚ) (hne : l ≠ []) (hb : ∀ x ∈ l, lo ≤ x) :
    lo ≤ l.sum / (l.length : ℚ) := by
  have hlen : 0 < (l.length : ℚ) := by exact_mod_cast List.length_pos.mpr hne
  rw [le_div_iff₀ hlen]
  have h := List.card_nsmul_le_sum l lo hb
  rw [nsmul_eq_mul] at h
  linarith [h]

theorem weightedSum_pos {α : Type} (l : List α) (w : α → ℚ) (hne : l ≠ [])
    (hw : ∀ a ∈ l, 0 < w a) : 0 < (l.map w).sum := by
  apply List.sum_pos
  · intro x hx
    obtain ⟨a, ha, rfl⟩ := List.mem_map.mp hx
    exact hw a ha
  · simpa using hne

theorem weightedMean_le {α : Type} (l : List α) (f w : α → ℚ) (hi : ℚ) (hne : l ≠ [])
    (hw : ∀ a ∈ l, 0 < w a) (hb : ∀ a ∈ l, f a ≤ hi) :
    (l.map fun a => f a * w a).sum / (l.map w).sum ≤ hi := by
  have hW : 0 < (l.map w).sum := weightedSum_pos l w hne hw
  rw [div_le_iff₀ hW]
  have h1 : (l.map fun a => f a * w a).sum ≤ (l.map fun a => hi * w a).sum := by
    apply List.sum_le_sum
    intro a ha
    exact mul_le_mul_of_nonneg_right (hb a ha) (le_of_lt (hw a ha))
  have h2 : (l.map fun a => hi * w a).sum = hi * (l.map w).sum := by
    rw [← List.sum_map_mul_left]
  linarith [h1, h2.le, h2.ge]

theorem le_weightedMean {α : Type} (l : List α) (f w : α → ℚ) (lo : ℚ) (hne : l ≠ [])
    (hw : ∀ a ∈ l, 0 < w a) (hb : ∀ a ∈ l, lo ≤ f a) :
    lo ≤ (l.map fun a => f a * w a).sum / (l.map w).sum := by
  have hW : 0 < (l.map w).sum := weightedSum_pos l w hne hw
  rw [le_div_iff₀ hW]
  have h1 : (l.map fun a => lo * w a).sum ≤ (l.map fun a => f a * w a).sum := by
    apply List.sum_le_sum
    intro a ha
    exact mul_le_mul_of_nonneg_right (hb a ha) (le_of_lt (hw a ha))
  have h2 : (l.map fun a => lo * w a).sum = lo * (l.map w).sum := by
    rw [← List.sum_map_mul_left]
  linarith [h1, h2.le, h2.ge]

theorem percentileSorted_bounds (l : List ℚ) (p lo hi : ℚ) (hne : l ≠ []) (hp : 0 ≤ p)
    (hb : ∀ x ∈ l, lo ≤ x ∧ x ≤ hi) :
    lo ≤ percentileSorted l p ∧ percentileSorted l p ≤ hi := by
  have hL : 0 < l.length := List.length_pos.mpr hne
  have hL1 : (1 : ℚ) ≤ (l.length : ℚ) := by exact_mod_cast hL
  have hidx0 : 0 ≤ p / 100 * ((l.length : ℚ) - 1) := by
    apply mul_nonneg (div_nonneg hp (by norm_num))
    linarith
  simp only [percentileSorted]
  rw [if_neg (by simpa [List.isEmpty_iff] using hne)]
  by_cases hcase : (l.length : ℤ) ≤ ⌈p / 100 * ((l.length : ℚ) - 1)⌉
  · rw [if_pos hcase]
    have hmem := getD_mem_of_lt l (l.length - 1) (by omega)
    exact ⟨(hb _ hmem).1, (hb _ hmem).2⟩
  · rw [if_neg hcase]
    push_neg at hcase
    have hfl0 : 0 ≤ ⌊p / 100 * ((l.length : ℚ) - 1)⌋ := Int.floor_nonneg.mpr hidx0
    have hflc : ⌊p / 100 * ((l.length : ℚ) - 1)⌋ ≤ ⌈p / 100 * ((l.length : ℚ) - 1)⌉ :=
      Int.floor_le_ceil _
    have hlowlt : (⌊p / 100 * ((l.length : ℚ) - 1)⌋).toNat < l.length := by omega
    have huplt : (⌈p / 100 * ((l.length : ℚ) - 1)⌉).toNat < l.length := by omega
    have hmema := hb _ (getD_mem_of_lt l _ hlowlt)
    have hmemb := hb _ (getD_mem_of_lt l _ huplt)
    have hw0 : 0 ≤ p / 100 * ((l.length : ℚ) - 1) - ⌊p / 100 * ((l.length : ℚ) - 1)⌋ :=
      sub_nonneg.mpr (Int.floor_le _)
    have hw1 : p / 100 * ((l.length : ℚ) - 1) - ⌊p / 100 * ((l.length : ℚ) - 1)⌋ ≤ 1 := by
      have := Int.lt_floor_add_one (p / 100 * ((l.length : ℚ) - 1))
      linarith
    constructor
    · nlinarith [hmema.1, hmemb.1, hw0, hw1]
    · nlinarith [hmema.2, hmemb.2, hw0, hw1]

/-! ### Claim theorems -/

/-- C1: For every image successfully scored by the composite scorer, the
composite score equals `0.30*normalizedLaplacian + 0.20*normalizedGradient +
0.40*normalizedTenengrad + 0.10*normalizedVariance` of that image's
normalized scores, the four weights sum exactly to 1, and in particular
normalized inputs `L=100, G=0, T=50, V=0` give composite `50`. -/
theorem composite_weighted_sum_spec :
    (∀ (log10 : ℚ → ℚ) (calib : Option CalibStats) (ls gs ts vs : ℚ),
      (calculateCompositeScore log10 calib ls gs ts vs).composite =
        0.30 * (calculateCompositeScore log10 calib ls gs ts vs).normalized.laplacian +
        0.20 * (calculateCompositeScore log10 calib ls gs ts vs).normalized.gradient +
        0.40 * (calculateCompositeScore log10 calib ls gs ts vs).normalized.tenengrad +
        0.10 * (calculateCompositeScore log10 calib ls gs ts vs).normalized.variance) ∧
    ((0.30 : ℚ) + 0.20 + 0.40 + 0.10 = 1) ∧
    compositeOf { laplacian := 100, gradient := 0, tenengrad := 50, variance := 0 } = 50 := by
  refine ⟨?_, by norm_num, by norm_num [compositeOf]⟩
  intro log10 calib ls gs ts vs
  cases calib <;> simp [calculateCompositeScore, compositeOf] <;> ring

/-- C3: The percentile function interpolates between order statistics of the
ascending-sorted array at fractional rank `p/100*(n-1)`; on a sorted array,
rank 0 yields the first element and rank 100 the last, and the empty array
yields 0 for every `p`. -/
theorem percentile_boundary_spec :
    (∀ p : ℚ, percentileSorted [] p = 0) ∧
    (∀ (arr : List ℚ) (p : ℚ), percentile arr p = percentileSorted (sortAsc arr) p) ∧
    (∀ arr : List ℚ, (sortAsc arr).Perm arr ∧ (sortAsc arr).Sorted (· ≤ ·)) ∧
    (∀ l : List ℚ, l ≠ [] →
      percentileSorted l 0 = l.getD 0 0 ∧
      percentileSorted l 100 = l.getD (l.length - 1) 0) := by
  refine ⟨fun _ => rfl, fun _ _ => rfl,
    fun arr => ⟨List.perm_insertionSort _ _, List.sorted_insertionSort _ _⟩, ?_⟩
  intro l hne
  have hL : 0 < l.length := List.length_pos.mpr hne
  have hnotempty : ¬ l.isEmpty = true := by simpa [List.isEmpty_iff] using hne
  constructor
  · simp only [percentileSorted]
    rw [if_neg hnotempty]
    have hidx : (0 : ℚ) / 100 * ((l.length : ℚ) - 1) = 0 := by ring
    rw [hidx, Int.ceil_zero, Int.floor_zero]
    rw [if_neg (by omega)]
    simp
  · simp only [percentileSorted]
    rw [if_neg hnotempty]
    have hidx : (100 : ℚ) / 100 * ((l.length : ℚ) - 1) = (((l.length : ℤ) - 1 : ℤ) : ℚ) := by
      push_cast
      ring
    rw [hidx, Int.floor_intCast, Int.ceil_intCast]
    rw [if_neg (by omega)]
    have htn : ((l.length : ℤ) - 1).toNat = l.length - 1 := by omega
    rw [htn]
    ring

/-- C8: For every input image, a failing pipeline yields a result record
carrying the error message and no scores, instead of an exception escaping
the per-image boundary; batch processing maps every input (before and after
a failing one) to its own record, so one failing image never aborts the
rest of the batch. -/
theorem analyze_error_boundary_spec :
    (∀ (threshold : ℚ) (file msg : String),
      analyzeComposite threshold file (Except.error msg) =
        { file := file, blurScore := none, isBlurry := none, error := some msg }) ∧
    (∀ (threshold : ℚ) (file : String) (rawScore : CompositeResult),
      analyzeComposite threshold file (Except.ok rawScore) =
        { file := file, blurScore := some (round2 rawScore.composite),
          isBlurry := some (isBlurryComposite rawScore threshold), error := none }) ∧
    (∀ (threshold : ℚ) (inputs : List (String × Except String CompositeResult)),
      (analyzeBatch threshold inputs).length = inputs.length) ∧
    (∀ (threshold : ℚ) (pre post : List (String × Except String CompositeResult))
        (file msg : String),
      analyzeBatch threshold (pre ++ (file, Except.error msg) :: post) =
        analyzeBatch threshold pre ++
          { file := file, blurScore := none, isBlurry := none, error := some msg } ::
            analyzeBatch threshold post) := by
  refine ⟨fun _ _ _ => rfl, fun _ _ _ => rfl, fun _ inputs => by simp [analyzeBatch], ?_⟩
  intro threshold pre post file msg
  simp [analyzeBatch, analyzeComposite]

theorem hundred_clip_unit_range (x : ℚ) : 0 ≤ 100 * clip x 0 1 ∧ 100 * clip x 0 1 ≤ 100 := by
  constructor
  · exact mul_nonneg (by norm_num) (le_clip x 0 1)
  · have h := clip_le x 0 1 (by norm_num)
    linarith

/-- C2: For every finite non-negative raw score quadruple, each of the four
normalized scores lies in `[0, 100]` in both normalization modes, and the
normalization maps are exactly the hand-tuned formulas
(`min(100, raw/0.5)`, `min(100, raw/0.3)`,
`clip(((log10(raw)-2)/6)*100, 0, 100)` with zero-guard, `min(100, raw/10)`)
respectively the calibration formulas
(`100*clip((raw-p5)/(p95-p5), 0, 1)`, Tenengrad in log10 space with the same
zero-guard).  The calibration-mode hypotheses `p5 < p95` record that the
statistics are non-degenerate (in IEEE arithmetic a degenerate `p5 = p95`
would give `NaN`, which the exact model cannot represent). -/
theorem normalization_range_spec
    (log10 : ℚ → ℚ) (st : CalibStats) (ls gs ts vs : ℚ)
    (hl : 0 ≤ ls) (hg : 0 ≤ gs) (hv : 0 ≤ vs)
    (hlp : st.laplacian.p5 < st.laplacian.p95)
    (hgp : st.gradient.p5 < st.gradient.p95)
    (hvp : st.variance.p5 < st.variance.p95)
    (htp : tenengradLogOf log10 st.tenengrad.p5 < tenengradLogOf log10 st.tenengrad.p95) :
    normalizedInRange (normalizeHandTuned log10 ls gs ts vs) ∧
    normalizeHandTuned log10 ls gs ts vs =
      { laplacian := min 100 (ls / 0.5)
        gradient := min 100 (gs / 0.3)
        tenengrad := clip ((tenengradLogOf log10 ts - 2) / 6 * 100) 0 100
        variance := min 100 (vs / 10) } ∧
    normalizedInRange (normalizePercentile log10 st ls gs ts vs) ∧
    normalizePercentile log10 st ls gs ts vs =
      { laplacian := 100 * clip ((ls - st.laplacian.p5) /
            (st.laplacian.p95 - st.laplacian.p5)) 0 1
        gradient := 100 * clip ((gs - st.gradient.p5) /
            (st.gradient.p95 - st.gradient.p5)) 0 1
        tenengrad := normalizeTenengradLog log10 st.tenengrad.p5 st.tenengrad.p95 ts
        variance := 100 * clip ((vs - st.variance.p5) /
            (st.variance.p95 - st.variance.p5)) 0 1 } := by
  refine ⟨?_, rfl, ?_, rfl⟩
  · refine ⟨⟨?_, min_le_left _ _⟩, ⟨?_, min_le_left _ _⟩,
      ⟨le_clip _ _ _, clip_le _ _ _ (by norm_num)⟩, ⟨?_, min_le_left _ _⟩⟩
    · exact le_min (by norm_num) (by positivity)
    · exact le_min (by norm_num) (by positivity)
    · exact le_min (by norm_num) (by positivity)
  · exact ⟨hundred_clip_unit_range _, hundred_clip_unit_range _,
      hundred_clip_unit_range _, hundred_clip_unit_range _⟩

/-- Non-degenerate calibration statistics used to instantiate the
normalization range theorem. -/
def calibStatsForRangeWitness : CalibStats :=
  { laplacian := { p5 := 1, p95 := 3, median := 2, min := 0, max := 4 }
    gradient := { p5 := 1, p95 := 3, median := 2, min := 0, max := 4 }
    tenengrad := { p5 := 10, p95 := 1000, median := 100, min := 1, max := 10000 }
    variance := { p5 := 1, p95 := 3, median := 2, min := 0, max := 4 }
    sampleSize := 3
    patchMode := false
    totalSamples := 3
    version := "1.0.0" }

theorem normalization_range_spec_witness :
    normalizedInRange (normalizeHandTuned id 1 2 3 4) ∧
    normalizeHandTuned id 1 2 3 4 =
      { laplacian := min 100 ((1 : ℚ) / 0.5)
        gradient := min 100 ((2 : ℚ) / 0.3)
        tenengrad := clip ((tenengradLogOf id 3 - 2) / 6 * 100) 0 100
        variance := min 100 ((4 : ℚ) / 10) } ∧
    normalizedInRange (normalizePercentile id calibStatsForRangeWitness 1 2 3 4) ∧
    normalizePercentile id calibStatsForRangeWitness 1 2 3 4 =
      { laplacian := 100 * clip (((1 : ℚ) - calibStatsForRangeWitness.laplacian.p5) /
            (calibStatsForRangeWitness.laplacian.p95 - calibStatsForRangeWitness.laplacian.p5)) 0 1
        gradient := 100 * clip (((2 : ℚ) - calibStatsForRangeWitness.gradient.p5) /
            (calibStatsForRangeWitness.gradient.p95 - calibStatsForRangeWitness.gradient.p5)) 0 1
        tenengrad := normalizeTenengradLog id calibStatsForRangeWitness.tenengrad.p5
            calibStatsForRangeWitness.tenengrad.p95 3
        variance := 100 * clip (((4 : ℚ) - calibStatsForRangeWitness.variance.p5) /
            (calibStatsForRangeWitness.variance.p95 - calibStatsForRangeWitness.variance.p5)) 0 1 } :=
  normalization_range_spec id calibStatsForRangeWitness 1 2 3 4
    (by norm_num) (by norm_num) (by norm_num)
    (by norm_num [calibStatsForRangeWitness]) (by norm_num [calibStatsForRangeWitness])
    (by norm_num [calibStatsForRangeWitness])
    (by norm_num [calibStatsForRangeWitness, tenengradLogOf])

/-- Concrete aggregation scores used to exhibit the strategy fallback. -/
def fallbackAggScores : AggScores :=
  { maxFocus := 10, minFocus := 1, avgFocus := 5, centerWeighted := 6,
    subjectFocusAggressive := 7, subjectFocus := 7, subjectFocusConservative := 7,
    subjectFocusRelaxed := 7, subjectFocusStrict := 7, subjectFocusVeryStrict := 7,
    peakFocus := 8, top10Percentile := 9, top25Percentile := 9, medianFocus := 5 }

/-- C7 counterexample: the algorithm name `histogram` is supported by neither
switch, yet constructing a detector with it selects the composite detector
and evaluating the blurry decision with it selects the max-focus score and
produces a verdict — no configuration error is raised, contradicting the
claim that unsupported names fail with a `ConfigError` rather than producing
any score. -/
theorem unsupported_name_produces_score :
    selectDetector "histogram" = DetectorKind.composite ∧
    "histogram" ∉ supportedAlgorithms ∧
    "histogram" ∉ supportedStrategies ∧
    strategyScoreOf fallbackAggScores "histogram" = fallbackAggScores.maxFocus ∧
    isBlurryPatchBased fallbackAggScores 25 "histogram" = true := by
  refine ⟨rfl, by decide, by decide, rfl, by decide⟩

/-- C7 amended: supplying an unsupported algorithm name does not fail; the
constructor's `default` switch arm falls back to the composite detector.
Likewise an unsupported aggregation strategy name does not fail: the blurry
decision falls back to the max-focus score and still produces a verdict.
No `ConfigError` exists in the code. -/
theorem unsupported_names_fall_back
    (algorithm : String) (halg : algorithm ∉ supportedAlgorithms)
    (scores : AggScores) (threshold : ℚ) (strategy : String)
    (hstrat : strategy ∉ supportedStrategies) :
    selectDetector algorithm = DetectorKind.composite ∧
    strategyScoreOf scores strategy = scores.maxFocus ∧
    isBlurryPatchBased scores threshold strategy = decide (scores.maxFocus < threshold) := by
  simp only [supportedAlgorithms, List.mem_cons, List.not_mem_nil, or_false, not_or] at halg
  simp only [supportedStrategies, List.mem_cons, List.not_mem_nil, or_false, not_or] at hstrat
  obtain ⟨ha1, ha2, ha3, ha4, ha5, ha6⟩ := halg
  obtain ⟨hs1, hs2, hs3, hs4, hs5, hs6, hs7, hs8, hs9, hs10, hs11, hs12⟩ := hstrat
  refine ⟨?_, ?_, ?_⟩
  · simp [selectDetector, ha1, ha2, ha3, ha4, ha5]
  · simp [strategyScoreOf, hs1, hs2, hs3, hs4, hs5, hs6, hs7, hs8, hs9, hs10, hs11, hs12]
  · simp [isBlurryPatchBased, strategyScoreOf,
      hs1, hs2, hs3, hs4, hs5, hs6, hs7, hs8, hs9, hs10, hs11, hs12]

theorem unsupported_names_fall_back_witness :
    selectDetector "tile-based" = DetectorKind.composite ∧
    strategyScoreOf fallbackAggScores "p95" = fallbackAggScores.maxFocus ∧
    isBlurryPatchBased fallbackAggScores 25 "p95" =
      decide (fallbackAggScores.maxFocus < 25) :=
  unsupported_names_fall_back "tile-based" (by decide) fallbackAggScores 25 "p95" (by decide)

/-- C4: peak-focus depends only on the raw Tenengrad values of the
top-3-by-composite patches: any two patch lists whose descending-by-composite
top-3 Tenengrad lists agree get the same peak-focus score, regardless of
the composite scores of the remaining patches; the averaged raw value is
normalized with the Tenengrad log-percentile map against calibration
`p5`/`p95` when calibration is supplied, else against the empirical log
range `[3.0, 9.0]` mapped onto `[0, 100]`. -/
theorem peakFocus_top3_spec :
    (∀ (log10 : ℚ → ℚ) (calib : Option AlgStats) (ps qs : List PatchScore),
      topTenengrads ps = topTenengrads qs →
      calculatePeakFocus log10 calib ps = calculatePeakFocus log10 calib qs) ∧
    (∀ (log10 : ℚ → ℚ) (stats : AlgStats) (ps : List PatchScore),
      calculatePeakFocus log10 (some stats) ps =
        normalizeTenengradLog log10 stats.p5 stats.p95
          ((topTenengrads ps).sum / ((topTenengrads ps).length : ℚ))) ∧
    (∀ (log10 : ℚ → ℚ) (ps : List PatchScore),
      calculatePeakFocus log10 none ps =
        100 * clip ((tenengradLogOf log10
            ((topTenengrads ps).sum / ((topTenengrads ps).length : ℚ)) - 3) / (9 - 3)) 0 1) ∧
    (∀ ps : List PatchScore,
      topTenengrads ps = ((sortPatchesByCompositeDesc ps).take 3).map fun p => p.tenengrad) := by
  refine ⟨?_, fun _ _ _ => rfl, fun _ _ => rfl, fun _ => rfl⟩
  intro log10 calib ps qs h
  simp only [calculatePeakFocus, h]

/-- Patch lists agreeing on the top-3-by-composite patches but differing in
the remaining patch, used to instantiate the peak-focus theorem. -/
def peakFocusPatchesA : List PatchScore :=
  [⟨5, 0, 0, 100, 0⟩, ⟨4, 0, 0, 200, 0⟩, ⟨3, 0, 0, 300, 0⟩, ⟨2, 0, 0, 400, 0⟩]

/-- Same top three patches as `peakFocusPatchesA` in a different input order,
with a different fourth patch. -/
def peakFocusPatchesB : List PatchScore :=
  [⟨3, 0, 0, 300, 0⟩, ⟨5, 0, 0, 100, 0⟩, ⟨4, 0, 0, 200, 0⟩, ⟨1, 0, 0, 999, 0⟩]

theorem peakFocus_top3_spec_witness :
    calculatePeakFocus (fun _ => 0) none peakFocusPatchesA =
      calculatePeakFocus (fun _ => 0) none peakFocusPatchesB :=
  peakFocus_top3_spec.1 (fun _ => 0) none peakFocusPatchesA peakFocusPatchesB (by decide)

/-- C5: every subject-focus variant is the generic parametrized computation at
its `(topPercent, sigma)` pair; the generic computation retains exactly the
top `max(3, ceil(patchCount * topPercent))` patches of the
descending-by-composite sort (no more than the patch count) and returns the
Gaussian-position-weighted mean of only the retained patches' composite
scores, with the weights summed over the retained subset only; in particular
`topPercent = 0.08` on 64 patches retains exactly 6. -/
theorem subjectFocus_variant_spec :
    (∀ (gexp : ℚ → ℚ) (ps : List PatchScore) (px py : ℕ),
      calculateSubjectFocusAggressive gexp ps px py =
        calculateSubjectFocusVariant gexp ps px py 0.08 1.5 ∧
      calculateSubjectFocus gexp ps px py =
        calculateSubjectFocusVariant gexp ps px py 0.12 1.0 ∧
      calculateSubjectFocusConservative gexp ps px py =
        calculateSubjectFocusVariant gexp ps px py 0.18 0.7 ∧
      calculateSubjectFocusRelaxed gexp ps px py =
        calculateSubjectFocusVariant gexp ps px py 0.28 0.5 ∧
      calculateSubjectFocusStrict gexp ps px py =
        calculateSubjectFocusVariant gexp ps px py 0.38 0.4 ∧
      calculateSubjectFocusVeryStrict gexp ps px py =
        calculateSubjectFocusVariant gexp ps px py 0.40 0.35) ∧
    (∀ (gexp : ℚ → ℚ) (ps : List PatchScore) (px py : ℕ) (tp sg : ℚ),
      calculateSubjectFocusVariant gexp ps px py tp sg =
        ((retainedPatches gexp ps px py tp sg).map fun p => p.composite * p.positionWeight).sum /
          ((retainedPatches gexp ps px py tp sg).map fun p => p.positionWeight).sum) ∧
    (∀ (gexp : ℚ → ℚ) (ps : List PatchScore) (px py : ℕ) (tp sg : ℚ),
      (retainedPatches gexp ps px py tp sg).length = min (topNOf ps.length tp) ps.length) ∧
    topNOf 64 0.08 = 6 ∧
    (∀ (gexp : ℚ → ℚ) (ps : List PatchScore) (px py : ℕ) (sg : ℚ), ps.length = 64 →
      (retainedPatches gexp ps px py 0.08 sg).length = 6) := by
  have hlen : ∀ (gexp : ℚ → ℚ) (ps : List PatchScore) (px py : ℕ) (tp sg : ℚ),
      (retainedPatches gexp ps px py tp sg).length = min (topNOf ps.length tp) ps.length := by
    intro gexp ps px py tp sg
    simp only [retainedPatches, List.length_take, List.length_insertionSort,
      scoredPatchesOf, List.length_map, List.enum_length]
  have htop : topNOf 64 0.08 = 6 := by
    have hceil : ⌈(64 : ℚ) * 0.08⌉ = (6 : ℤ) := by
      rw [Int.ceil_eq_iff] <;> norm_num
    simp [topNOf, hceil]
  refine ⟨fun _ _ _ _ => ⟨rfl, rfl, rfl, rfl, rfl, rfl⟩, fun _ _ _ _ _ _ => rfl, hlen, htop, ?_⟩
  intro gexp ps px py sg h64
  rw [hlen, h64, htop]
  rfl

theorem subjectFocus_variant_spec_witness :
    (retainedPatches (fun _ => 1) (List.replicate 64 ⟨0, 0, 0, 0, 0⟩) 8 8 0.08 1.5).length = 6 :=
  subjectFocus_variant_spec.2.2.2.2 (fun _ => 1) (List.replicate 64 ⟨0, 0, 0, 0, 0⟩) 8 8 1.5
    (by simp)

/-- C6: the calibration computation fails (with the
`No valid results to compute statistics from` error) exactly when the corpus
is empty after filtering out error/failed entries; on success in patch mode,
`totalSamples` is the length of the flattened concatenation of all patches
across all valid images (the per-algorithm data arrays) while `sampleSize`
is the valid image count. -/
theorem computeStats_spec :
    (∀ (results : List ImageResult) (patchMode : Bool),
      (∃ e, computeStats results patchMode = Except.error e) ↔ validScoresOf results = []) ∧
    (∀ results : List ImageResult, validScoresOf results ≠ [] →
      (computeStats results true).toOption.map
          (fun s => (s.totalSamples, s.sampleSize, s.patchMode)) =
        some ((flattenedPatchField results fun p => p.laplacian).length,
          (validScoresOf results).length, true)) := by
  constructor
  · intro results pm
    by_cases hv : validScoresOf results = []
    · simp [computeStats, hv]
    · simp [computeStats, List.isEmpty_iff, hv]
  · intro results hv
    simp [computeStats, List.isEmpty_iff, hv, Except.toOption, sortAsc,
      List.length_insertionSort]

/-- A one-image corpus with two patch score records, used to instantiate the
calibration-statistics theorem. -/
def calibCorpusW : List ImageResult :=
  [{ error := none
     scores := some
       { laplacian := 1, gradient := 2, tenengrad := 3, variance := 4
         patchScores := some [⟨10, 1, 1, 1, 1⟩, ⟨20, 2, 2, 2, 2⟩] } }]

theorem computeStats_spec_witness :
    (computeStats calibCorpusW true).toOption.map
        (fun s => (s.totalSamples, s.sampleSize, s.patchMode)) =
      some ((flattenedPatchField calibCorpusW fun p => p.laplacian).length,
        (validScoresOf calibCorpusW).length, true) :=
  computeStats_spec.2 calibCorpusW (by decide)

theorem calculateVariance_nonneg (data : List ℚ) : 0 ≤ calculateVariance data := by
  simp only [calculateVariance]
  apply div_nonneg
  · apply List.sum_nonneg
    intro x hx
    obtain ⟨a, -, rfl⟩ := List.mem_map.mp hx
    exact mul_self_nonneg _
  · positivity

theorem calculateVariance_const (data : List ℚ) (c : ℚ) (h : ∀ x ∈ data, x = c) :
    calculateVariance data = 0 := by
  rcases eq_or_ne data [] with rfl | hne
  · simp [calculateVariance]
  · have hlen : (data.length : ℚ) ≠ 0 :=
      Nat.cast_ne_zero.mpr (List.length_pos.mpr hne).ne'
    have hrep : data = List.replicate data.length c := List.eq_replicate_iff.mpr ⟨rfl, h⟩
    have hsum : data.sum = (data.length : ℚ) * c := by
      conv_lhs => rw [hrep]
      simp [List.sum_replicate, nsmul_eq_mul]
    have hmean : data.sum / (data.length : ℚ) = c := by
      rw [hsum, mul_comm, mul_div_assoc, div_self hlen, mul_one]
    simp only [calculateVariance, hmean]
    have hzero : (data.map fun x => (x - c) * (x - c)) = List.replicate data.length 0 := by
      apply List.eq_replicate_iff.mpr
      refine ⟨by simp, ?_⟩
      intro b hb
      obtain ⟨a, ha, rfl⟩ := List.mem_map.mp hb
      rw [h a ha]
      ring
    rw [hzero]
    simp [List.sum_replicate]

theorem grid_index_lt (x y w h : ℕ) (hx : x < w) (hy : y < h) : y * w + x < w * h := by
  calc y * w + x < y * w + w := by omega
  _ = (y + 1) * w := by ring
  _ ≤ h * w := Nat.mul_le_mul_right w hy
  _ = w * h := Nat.mul_comm h w

theorem getD_replicate_of_lt (n : ℕ) (c : ℚ) (i : ℕ) (h : i < n) :
    (List.replicate n c).getD i 0 = c := by
  rw [List.getD_eq_getElem?_getD, List.getElem?_replicate, if_pos h]
  rfl

theorem applyLaplacian_replicate (c : ℚ) (w h : ℕ) :
    ∀ v ∈ applyLaplacian (List.replicate (w * h) c) w h, v = 0 := by
  intro v hv
  simp only [applyLaplacian, List.mem_map, List.mem_range] at hv
  obtain ⟨idx, hidx, rfl⟩ := hv
  by_cases hcond : 1 ≤ idx % w ∧ idx % w + 1 < w ∧ 1 ≤ idx / w ∧ idx / w + 1 < h
  · rw [if_pos hcond]
    obtain ⟨h1, h2, h3, h4⟩ := hcond
    have hw0 : 0 < w := by omega
    have hxw : idx % w < w := Nat.mod_lt _ hw0
    have hyh : idx / w < h := by omega
    rw [getD_replicate_of_lt _ _ _ (grid_index_lt _ _ _ _ hxw (by omega)),
      getD_replicate_of_lt _ _ _ (grid_index_lt _ _ _ _ (by omega) hyh),
      getD_replicate_of_lt _ _ _ (grid_index_lt _ _ _ _ hxw hyh),
      getD_replicate_of_lt _ _ _ (grid_index_lt _ _ _ _ (by omega) hyh),
      getD_replicate_of_lt _ _ _ (grid_index_lt _ _ _ _ hxw (by omega))]
    ring
  · rw [if_neg hcond]

theorem applySobelX_replicate (c : ℚ) (w h : ℕ) :
    ∀ v ∈ applySobelX (List.replicate (w * h) c) w h, v = 0 := by
  intro v hv
  simp only [applySobelX, List.mem_map, List.mem_range] at hv
  obtain ⟨idx, hidx, rfl⟩ := hv
  by_cases hcond : 1 ≤ idx % w ∧ idx % w + 1 < w ∧ 1 ≤ idx / w ∧ idx / w + 1 < h
  · rw [if_pos hcond]
    obtain ⟨h1, h2, h3, h4⟩ := hcond
    have hw0 : 0 < w := by omega
    have hxw : idx % w < w := Nat.mod_lt _ hw0
    have hyh : idx / w < h := by omega
    rw [getD_replicate_of_lt _ _ _ (grid_index_lt _ _ _ _ (by omega) (by omega)),
      getD_replicate_of_lt _ _ _ (grid_index_lt _ _ _ _ (by omega) (by omega)),
      getD_replicate_of_lt _ _ _ (grid_index_lt _ _ _ _ (by omega) hyh),
      getD_replicate_of_lt _ _ _ (grid_index_lt _ _ _ _ (by omega) hyh),
      getD_replicate_of_lt _ _ _ (grid_index_lt _ _ _ _ (by omega) (by omega)),
      getD_replicate_of_lt _ _ _ (grid_index_lt _ _ _ _ (by omega) (by omega))]
    ring
  · rw [if_neg hcond]

theorem applySobelY_replicate (c : ℚ) (w h : ℕ) :
    ∀ v ∈ applySobelY (List.replicate (w * h) c) w h, v = 0 := by
  intro v hv
  simp only [applySobelY, List.mem_map, List.mem_range] at hv
  obtain ⟨idx, hidx, rfl⟩ := hv
  by_cases hcond : 1 ≤ idx % w ∧ idx % w + 1 < w ∧ 1 ≤ idx / w ∧ idx / w + 1 < h
  · rw [if_pos hcond]
    obtain ⟨h1, h2, h3, h4⟩ := hcond
    have hw0 : 0 < w := by omega
    have hxw : idx % w < w := Nat.mod_lt _ hw0
    have hyh : idx / w < h := by omega
    rw [getD_replicate_of_lt _ _ _ (grid_index_lt _ _ _ _ (by omega) (by omega)),
      getD_replicate_of_lt _ _ _ (grid_index_lt _ _ _ _ (by omega) (by omega)),
      getD_replicate_of_lt _ _ _ (grid_index_lt _ _ _ _ (by omega) (by omega)),
      getD_replicate_of_lt _ _ _ (grid_index_lt _ _ _ _ (by omega) (by omega)),
      getD_replicate_of_lt _ _ _ (grid_index_lt _ _ _ _ (by omega) (by omega)),
      getD_replicate_of_lt _ _ _ (grid_index_lt _ _ _ _ (by omega) (by omega))]
    ring
  · rw [if_neg hcond]

/-- C9: for every pixel buffer each of the four focus-measure kernels returns
a score that is at least 0 (for every square-root model that is non-negative
on non-negative inputs), and on every constant-intensity buffer all four
kernels return exactly 0. -/
theorem kernel_nonneg_const_zero_spec
    (msqrt : ℚ → ℚ) (hsq : ∀ x, 0 ≤ x → 0 ≤ msqrt x) (hsq0 : msqrt 0 = 0) :
    (∀ (pixels : List ℚ) (wd ht : ℕ),
      0 ≤ laplacianBlurScore pixels wd ht ∧ 0 ≤ gradientBlurScore msqrt pixels wd ht ∧
      0 ≤ tenengradBlurScore pixels wd ht ∧ 0 ≤ varianceBlurScore pixels) ∧
    (∀ (c : ℚ) (wd ht : ℕ),
      laplacianBlurScore (List.replicate (wd * ht) c) wd ht = 0 ∧
      gradientBlurScore msqrt (List.replicate (wd * ht) c) wd ht = 0 ∧
      tenengradBlurScore (List.replicate (wd * ht) c) wd ht = 0 ∧
      varianceBlurScore (List.replicate (wd * ht) c) = 0) := by
  constructor
  · intro pixels wd ht
    refine ⟨calculateVariance_nonneg _, ?_, calculateVariance_nonneg _,
      calculateVariance_nonneg _⟩
    simp only [gradientBlurScore]
    apply div_nonneg
    · apply List.sum_nonneg
      intro x hx
      obtain ⟨p, -, rfl⟩ := List.mem_map.mp hx
      exact hsq _ (add_nonneg (mul_self_nonneg _) (mul_self_nonneg _))
    · positivity
  · intro c wd ht
    refine ⟨calculateVariance_const _ 0 (applyLaplacian_replicate c wd ht), ?_, ?_,
      calculateVariance_const _ c fun x hx => List.eq_of_mem_replicate hx⟩
    · simp only [gradientBlurScore]
      rw [List.sum_eq_zero, zero_div]
      intro x hx
      obtain ⟨p, hp, rfl⟩ := List.mem_map.mp hx
      obtain ⟨a, b⟩ := p
      obtain ⟨hpa, hpb⟩ := List.of_mem_zip hp
      rw [applySobelX_replicate c wd ht _ hpa, applySobelY_replicate c wd ht _ hpb]
      simpa using hsq0
    · simp only [tenengradBlurScore]
      apply calculateVariance_const _ 0
      intro x hx
      obtain ⟨p, hp, rfl⟩ := List.mem_map.mp hx
      obtain ⟨a, b⟩ := p
      obtain ⟨hpa, hpb⟩ := List.of_mem_zip hp
      rw [applySobelX_replicate c wd ht _ hpa, applySobelY_replicate c wd ht _ hpb]
      ring

theorem kernel_nonneg_const_zero_spec_witness :
    (0 ≤ laplacianBlurScore [1, 2, 3, 4] 2 2 ∧
      0 ≤ gradientBlurScore (fun _ => 0) [1, 2, 3, 4] 2 2 ∧
      0 ≤ tenengradBlurScore [1, 2, 3, 4] 2 2 ∧ 0 ≤ varianceBlurScore [1, 2, 3, 4]) ∧
    (laplacianBlurScore (List.replicate (3 * 3) 7) 3 3 = 0 ∧
      gradientBlurScore (fun _ => 0) (List.replicate (3 * 3) 7) 3 3 = 0 ∧
      tenengradBlurScore (List.replicate (3 * 3) 7) 3 3 = 0 ∧
      varianceBlurScore (List.replicate (3 * 3) 7) = 0) :=
  ⟨(kernel_nonneg_const_zero_spec (fun _ => 0) (fun _ _ => le_refl 0) rfl).1 [1, 2, 3, 4] 2 2,
    (kernel_nonneg_const_zero_spec (fun _ => 0) (fun _ _ => le_refl 0) rfl).2 7 3 3⟩

theorem snd_mem_of_mem_enum {α : Type} {l : List α} {pr : ℕ × α} (hpr : pr ∈ l.enum) :
    pr.2 ∈ l := by
  rw [List.enum_eq_zip_range] at hpr
  obtain ⟨a, b⟩ := pr
  exact (List.of_mem_zip hpr).2

theorem percentile_bounds (arr : List ℚ) (p lo hi : ℚ) (hne : arr ≠ []) (hp : 0 ≤ p)
    (hb : ∀ x ∈ arr, lo ≤ x ∧ x ≤ hi) :
    lo ≤ percentile arr p ∧ percentile arr p ≤ hi := by
  have hlen : (sortAsc arr).length = arr.length := List.length_insertionSort _ _
  have hne2 : sortAsc arr ≠ [] := by
    intro hcon
    apply hne
    rw [hcon] at hlen
    exact List.length_eq_zero.mp hlen.symm
  exact percentileSorted_bounds _ p lo hi hne2 hp
    fun x hx => hb x ((List.mem_insertionSort _).mp hx)

theorem subjectFocusVariant_bounds (gexp : ℚ → ℚ) (hexp : ∀ x, 0 < gexp x)
    (ps : List PatchScore) (hne : ps ≠ []) (px py : ℕ) (tp sg lo hi : ℚ)
    (hb : ∀ s ∈ ps, lo ≤ s.composite ∧ s.composite ≤ hi) :
    lo ≤ calculateSubjectFocusVariant gexp ps px py tp sg ∧
      calculateSubjectFocusVariant gexp ps px py tp sg ≤ hi := by
  have hmem : ∀ q ∈ retainedPatches gexp ps px py tp sg,
      (lo ≤ q.composite ∧ q.composite ≤ hi) ∧ 0 < q.positionWeight := by
    intro q hq
    have hq2 : q ∈ scoredPatchesOf gexp ps px py sg :=
      (List.mem_insertionSort _).mp (List.mem_of_mem_take hq)
    simp only [scoredPatchesOf, List.mem_map] at hq2
    obtain ⟨pr, hpr, rfl⟩ := hq2
    exact ⟨hb _ (snd_mem_of_mem_enum hpr), hexp _⟩
  have hretne : retainedPatches gexp ps px py tp sg ≠ [] := by
    have hlen : (retainedPatches gexp ps px py tp sg).length =
        min (topNOf ps.length tp) ps.length := by
      simp only [retainedPatches, List.length_take, List.length_insertionSort,
        scoredPatchesOf, List.length_map, List.enum_length]
    intro hcon
    rw [hcon] at hlen
    have h3 : 3 ≤ topNOf ps.length tp := le_max_left _ _
    have hlp : 0 < ps.length := List.length_pos.mpr hne
    simp only [List.length_nil] at hlen
    omega
  simp only [calculateSubjectFocusVariant]
  constructor
  · exact le_weightedMean (retainedPatches gexp ps px py tp sg)
      (fun q => q.composite) (fun q => q.positionWeight) lo hretne
      (fun a ha => (hmem a ha).2) (fun a ha => (hmem a ha).1.1)
  · exact weightedMean_le (retainedPatches gexp ps px py tp sg)
      (fun q => q.composite) (fun q => q.positionWeight) hi hretne
      (fun a ha => (hmem a ha).2) (fun a ha => (hmem a ha).1.2)

theorem centerWeighted_bounds (gexp : ℚ → ℚ) (hexp : ∀ x, 0 < gexp x)
    (ps : List PatchScore) (hne : ps ≠ []) (px py : ℕ) (lo hi : ℚ)
    (hb : ∀ s ∈ ps, lo ≤ s.composite ∧ s.composite ≤ hi) :
    lo ≤ calculateCenterWeighted gexp ps px py ∧ calculateCenterWeighted gexp ps px py ≤ hi := by
  have henum : ps.enum ≠ [] := by
    simp only [ne_eq, List.enum_eq_nil]
    exact hne
  simp only [calculateCenterWeighted]
  constructor
  · exact le_weightedMean ps.enum (fun p => p.2.composite)
      (fun p => positionWeight gexp px py (1 / 2) p.1) lo henum
      (fun a _ => hexp _) (fun a ha => (hb _ (snd_mem_of_mem_enum ha)).1)
  · exact weightedMean_le ps.enum (fun p => p.2.composite)
      (fun p => positionWeight gexp px py (1 / 2) p.1) hi henum
      (fun a _ => hexp _) (fun a ha => (hb _ (snd_mem_of_mem_enum ha)).2)

/-- C10: for every non-empty patch grid, each aggregation strategy other than
peak-focus — average, median, top-25-percentile, top-10-percentile,
center-weighted, and all six subject-focus variants — produces a score lying
between any lower and upper bound enclosing the per-patch composite scores
(in particular between their minimum and maximum): each is a convex
combination or interpolated order statistic of those composites.
The `gexp` hypothesis states positivity of the exponential model. -/
theorem aggregation_within_patch_bounds (gexp : ℚ → ℚ) (hexp : ∀ x, 0 < gexp x)
    (ps : List PatchScore) (hne : ps ≠ []) (px py : ℕ) (lo hi : ℚ)
    (hb : ∀ s ∈ ps, lo ≤ s.composite ∧ s.composite ≤ hi) :
    (lo ≤ avgFocusOf (ps.map fun s => s.composite) ∧
      avgFocusOf (ps.map fun s => s.composite) ≤ hi) ∧
    (lo ≤ percentile (ps.map fun s => s.composite) 50 ∧
      percentile (ps.map fun s => s.composite) 50 ≤ hi) ∧
    (lo ≤ percentile (ps.map fun s => s.composite) 75 ∧
      percentile (ps.map fun s => s.composite) 75 ≤ hi) ∧
    (lo ≤ percentile (ps.map fun s => s.composite) 90 ∧
      percentile (ps.map fun s => s.composite) 90 ≤ hi) ∧
    (lo ≤ calculateCenterWeighted gexp ps px py ∧
      calculateCenterWeighted gexp ps px py ≤ hi) ∧
    (lo ≤ calculateSubjectFocusAggressive gexp ps px py ∧
      calculateSubjectFocusAggressive gexp ps px py ≤ hi) ∧
    (lo ≤ calculateSubjectFocus gexp ps px py ∧
      calculateSubjectFocus gexp ps px py ≤ hi) ∧
    (lo ≤ calculateSubjectFocusConservative gexp ps px py ∧
      calculateSubjectFocusConservative gexp ps px py ≤ hi) ∧
    (lo ≤ calculateSubjectFocusRelaxed gexp ps px py ∧
      calculateSubjectFocusRelaxed gexp ps px py ≤ hi) ∧
    (lo ≤ calculateSubjectFocusStrict gexp ps px py ∧
      calculateSubjectFocusStrict gexp ps px py ≤ hi) ∧
    (lo ≤ calculateSubjectFocusVeryStrict gexp ps px py ∧
      calculateSubjectFocusVeryStrict gexp ps px py ≤ hi) := by
  have hcs : ∀ x ∈ ps.map fun s => s.composite, lo ≤ x ∧ x ≤ hi := by
    intro x hx
    obtain ⟨s, hs, rfl⟩ := List.mem_map.mp hx
    exact hb s hs
  have hcsne : (ps.map fun s => s.composite) ≠ [] := by
    simp only [ne_eq, List.map_eq_nil_iff]
    exact hne
  refine ⟨⟨?_, ?_⟩, percentile_bounds _ 50 lo hi hcsne (by norm_num) hcs,
    percentile_bounds _ 75 lo hi hcsne (by norm_num) hcs,
    percentile_bounds _ 90 lo hi hcsne (by norm_num) hcs,
    centerWeighted_bounds gexp hexp ps hne px py lo hi hb,
    subjectFocusVariant_bounds gexp hexp ps hne px py 0.08 1.5 lo hi hb,
    subjectFocusVariant_bounds gexp hexp ps hne px py 0.12 1.0 lo hi hb,
    subjectFocusVariant_bounds gexp hexp ps hne px py 0.18 0.7 lo hi hb,
    subjectFocusVariant_bounds gexp hexp ps hne px py 0.28 0.5 lo hi hb,
    subjectFocusVariant_bounds gexp hexp ps hne px py 0.38 0.4 lo hi hb,
    subjectFocusVariant_bounds gexp hexp ps hne px py 0.40 0.35 lo hi hb⟩
  · exact le_sum_div_length _ lo hcsne fun x hx => (hcs x hx).1
  · exact sum_div_length_le _ hi hcsne fun x hx => (hcs x hx).2

theorem aggregation_within_patch_bounds_witness :
    ((50 : ℚ) ≤ avgFocusOf ([⟨50, 0, 0, 0, 0⟩].map fun s => PatchScore.composite s) ∧
      avgFocusOf ([⟨50, 0, 0, 0, 0⟩].map fun s => PatchScore.composite s) ≤ 50) ∧
    ((50 : ℚ) ≤ percentile ([⟨50, 0, 0, 0, 0⟩].map fun s => PatchScore.composite s) 50 ∧
      percentile ([⟨50, 0, 0, 0, 0⟩].map fun s => PatchScore.composite s) 50 ≤ 50) ∧
    ((50 : ℚ) ≤ percentile ([⟨50, 0, 0, 0, 0⟩].map fun s => PatchScore.composite s) 75 ∧
      percentile ([⟨50, 0, 0, 0, 0⟩].map fun s => PatchScore.composite s) 75 ≤ 50) ∧
    ((50 : ℚ) ≤ percentile ([⟨50, 0, 0, 0, 0⟩].map fun s => PatchScore.composite s) 90 ∧
      percentile ([⟨50, 0, 0, 0, 0⟩].map fun s => PatchScore.composite s) 90 ≤ 50) ∧
    ((50 : ℚ) ≤ calculateCenterWeighted (fun _ => 1) [⟨50, 0, 0, 0, 0⟩] 8 8 ∧
      calculateCenterWeighted (fun _ => 1) [⟨50, 0, 0, 0, 0⟩] 8 8 ≤ 50) ∧
    ((50 : ℚ) ≤ calculateSubjectFocusAggressive (fun _ => 1) [⟨50, 0, 0, 0, 0⟩] 8 8 ∧
      calculateSubjectFocusAggressive (fun _ => 1) [⟨50, 0, 0, 0, 0⟩] 8 8 ≤ 50) ∧
    ((50 : ℚ) ≤ calculateSubjectFocus (fun _ => 1) [⟨50, 0, 0, 0, 0⟩] 8 8 ∧
      calculateSubjectFocus (fun _ => 1) [⟨50, 0, 0, 0, 0⟩] 8 8 ≤ 50) ∧
    ((50 : ℚ) ≤ calculateSubjectFocusConservative (fun _ => 1) [⟨50, 0, 0, 0, 0⟩] 8 8 ∧
      calculateSubjectFocusConservative (fun _ => 1) [⟨50, 0, 0, 0, 0⟩] 8 8 ≤ 50) ∧
    ((50 : ℚ) ≤ calculateSubjectFocusRelaxed (fun _ => 1) [⟨50, 0, 0, 0, 0⟩] 8 8 ∧
      calculateSubjectFocusRelaxed (fun _ => 1) [⟨50, 0, 0, 0, 0⟩] 8 8 ≤ 50) ∧
    ((50 : ℚ) ≤ calculateSubjectFocusStrict (fun _ => 1) [⟨50, 0, 0, 0, 0⟩] 8 8 ∧
      calculateSubjectFocusStrict (fun _ => 1) [⟨50, 0, 0, 0, 0⟩] 8 8 ≤ 50) ∧
    ((50 : ℚ) ≤ calculateSubjectFocusVeryStrict (fun _ => 1) [⟨50, 0, 0, 0, 0⟩] 8 8 ∧
      calculateSubjectFocusVeryStrict (fun _ => 1) [⟨50, 0, 0, 0, 0⟩] 8 8 ≤ 50) :=
  aggregation_within_patch_bounds (fun _ => 1) (fun _ => by norm_num)
    [⟨50, 0, 0, 0, 0⟩] (by simp) 8 8 50 50
    (by intro s hs; simp only [List.mem_singleton] at hs; rw [hs]; exact ⟨le_refl _, le_refl _⟩)

theorem percentile_boundary_spec_witness :
    percentileSorted [3, 7] 0 = ([3, 7] : List ℚ).getD 0 0 ∧
    percentileSorted [3, 7] 100 = ([3, 7] : List ℚ).getD (([3, 7] : List ℚ).length - 1) 0 :=
  percentile_boundary_spec.2.2.2 [3, 7] (by decide)
